import Mathlib

/-!
Navigation guard and route table of `src/router/index.js`

A shallow embedding of the router module: the global `beforeEach` guard
(lines 62-74) with its credential lookup, and the static route tree
(lines 6-58).

JavaScript values are represented as follows.
* `to.path`, `from.path` and route paths are `String`s.
* `Storage.getItem(key)` returns a string or `null`: `Option String`.
* The guard calls `next` exactly once on every branch; the argument of that
  call is the `NavigationDecision`: `next()` is `allow`, `next(p)` is
  `redirect p`.
* An accessor that may throw returns `Except`; an exception thrown inside the
  guard is not caught there (the source has no `try`), so it propagates.
-/

/-! ## Navigation guard (lines 62-74) -/

/-- The argument handed to `next`: nothing (`next()`), or a path (`next(p)`). -/
inductive NavigationDecision where
  | allow : NavigationDecision
  | redirect (targetPath : String) : NavigationDecision
  deriving DecidableEq, Repr

/-- Line 63: `const publicPages = ['/auth/login', '/auth/register', '/auth/error']`. -/
def publicPages : List String := ["/auth/login", "/auth/register", "/auth/error"]

/-- `Array.prototype.includes` on an array of strings: strict equality with
some element. -/
def includes (xs : List String) (x : String) : Bool :=
  xs.any (fun y => y == x)

/-- Line 64: `const authRequired = !publicPages.includes(to.path)`. -/
def authRequired (toPath : String) : Bool :=
  !includes publicPages toPath

/-- JavaScript truthiness of a value that is a string or `null`: `null` and
the empty string are falsy, every other string is truthy. -/
def truthy : Option String → Bool
  | none => false
  | some s => s != ""

/-- JavaScript `a || b` on such values: `a` when `a` is truthy, else `b`. -/
def jsOr (a b : Option String) : Option String :=
  if truthy a then a else b

/-- A web storage area seen through `getItem`. -/
abbrev Storage := String → Option String

/-- Line 65:
`const apiKey = localStorage.getItem('apiKey') || sessionStorage.getItem('apiKey')`. -/
def apiKey (localStorage sessionStorage : Storage) : Option String :=
  jsOr (localStorage "apiKey") (sessionStorage "apiKey")

/-- Lines 67-73, the branching of the guard, on the two values computed in
lines 64-65: `authRequired` and the truthiness of `apiKey`. The source path
`from` is a parameter of the callback that the body never reads. -/
def guardBranch (required : Bool) (key : Bool) : NavigationDecision :=
  if !required && key then
    NavigationDecision.redirect "/"
  else if required && !key then
    NavigationDecision.redirect "/auth/login"
  else
    NavigationDecision.allow

/-- The guard as a function of the target path, the source path and the
credential flag (the truthiness of `apiKey`). -/
def navDecide (toPath fromPath : String) (credentialPresent : Bool) : NavigationDecision :=
  let _ := fromPath
  guardBranch (authRequired toPath) credentialPresent

/-- Lines 62-74: `router.beforeEach((to, from, next) => ...)`, reading both
storage areas. -/
def beforeEach (toPath fromPath : String) (localStorage sessionStorage : Storage) :
    NavigationDecision :=
  navDecide toPath fromPath (truthy (apiKey localStorage sessionStorage))

/-! ### Storage accessors that may throw -/

/-- What a failing storage access throws (a `SecurityError` when storage is
blocked, a `ReferenceError` when the global is missing). -/
inductive StorageError where
  | securityError : StorageError
  | referenceError : StorageError
  deriving DecidableEq, Repr

/-- A storage area whose `getItem` may throw. -/
abbrev ThrowingStorage := String → Except StorageError (Option String)

/-- Line 65 with accessors that may throw. `||` evaluates its right operand
only when the left one is falsy, and nothing catches an exception. -/
def apiKeyThrowing (localStorage sessionStorage : ThrowingStorage) :
    Except StorageError (Option String) :=
  match localStorage "apiKey" with
  | Except.error e => Except.error e
  | Except.ok a => if truthy a then Except.ok a else sessionStorage "apiKey"

/-- Lines 62-74 with accessors that may throw: line 65 runs before any call
of `next`, and the body has no `try`, so a thrown error leaves the guard
without a decision. -/
def beforeEachThrowing (toPath fromPath : String)
    (localStorage sessionStorage : ThrowingStorage) :
    Except StorageError NavigationDecision :=
  match apiKeyThrowing localStorage sessionStorage with
  | Except.error e => Except.error e
  | Except.ok k => Except.ok (navDecide toPath fromPath (truthy k))

/-- A storage area that never throws, seen as one that may. -/
def Storage.toThrowing (s : Storage) : ThrowingStorage :=
  fun key => Except.ok (s key)


/-! ## Route table (lines 6-58)

The table is handed to `createRouter` without matcher options, so the
defaults of the routing library apply (`strict: false`, `sensitive: false`,
`end: true`). The library turns every pattern into a regular expression and
a score, keeps the records sorted by score, and resolves a path to the first
record whose expression matches. For the patterns of this table:

* `/` is the root token, expression `^//?$`;
* a static segment `s` contributes `/s`, compared ignoring case (flag `i`;
  the static segments of the table are ASCII, for which this is ASCII case
  folding);
* `:name` contributes `/([^/]+?)`;
* `:name(.*)*` contributes `(?:/((?:.*)(?:/(?:.*))*))?`, where `.` stands for
  any character but a line terminator (the expression has no `s` flag);
* every expression ends in `/?$`.
-/

/-- One entry of the `routes` array: `path`, optional `name`, `component`
(the imported module, by its specifier) and `children`. -/
inductive RouteRecordRaw where
  | mk (path : String) (name : Option String) (component : String)
      (children : List RouteRecordRaw) : RouteRecordRaw

/-- Lines 6-58: the `routes` array. -/
def routes : List RouteRecordRaw :=
  [ RouteRecordRaw.mk "/" none "@/layout/AppLayout.vue"
      [ RouteRecordRaw.mk "/user" (some "user") "@/views/User.vue" [],
        RouteRecordRaw.mk "/" (some "dashboard") "@/views/Dashboard.vue" [],
        RouteRecordRaw.mk "/tokens" (some "tokens") "@/views/Tokens.vue" [],
        RouteRecordRaw.mk "/repositories" (some "repostiories") "@/views/Repositories.vue" [],
        RouteRecordRaw.mk "/repositories/:id/commits" (some "repo-commits")
          "@/views/Commits.vue" [],
        RouteRecordRaw.mk "/commits" (some "commits") "@/views/Commits.vue" [] ],
    RouteRecordRaw.mk "/auth/login" (some "login") "@/views/pages/auth/Login.vue" [],
    RouteRecordRaw.mk "/auth/register" (some "register") "@/views/pages/auth/Register.vue" [],
    RouteRecordRaw.mk "/:pathMatch(.*)*" (some "notfound") "@/views/pages/NotFound.vue" [] ]

/-- A route of the tree with its full path: what the matcher registers. -/
structure RouteRecord where
  path : String
  name : Option String
  component : String
  deriving DecidableEq, Repr

/-- The full path of a child: a child path that starts with `/` is absolute,
any other is appended to the parent path. -/
def joinPath (parentPath : Option String) (path : String) : String :=
  match parentPath with
  | none => path
  | some pp =>
    if path.data.head? = some '/' then path
    else if path = "" then pp
    else if pp.data.getLast? = some '/' then pp ++ path
    else pp ++ "/" ++ path

mutual
/-- All records of one route, children first (in order), then the route. -/
def RouteRecordRaw.records (parentPath : Option String) : RouteRecordRaw → List RouteRecord
  | RouteRecordRaw.mk path name component children =>
    recordsOfList (some (joinPath parentPath path)) children ++
      [RouteRecord.mk (joinPath parentPath path) name component]
/-- All records of a list of routes, in order. -/
def recordsOfList (parentPath : Option String) : List RouteRecordRaw → List RouteRecord
  | [] => []
  | r :: rs => r.records parentPath ++ recordsOfList parentPath rs
end

/-- Every record of the route tree, in registration order. -/
def allRecords : List RouteRecord := recordsOfList none routes

/-- The names carried by the routes of the tree. -/
def routeNames : List String := allRecords.filterMap (fun r => r.name)

/-! ### Path patterns -/

/-- One segment of a path pattern. -/
inductive PathToken where
  | static (value : List Char) : PathToken
  | param (name : List Char) : PathToken
  | wildcard (name : List Char) : PathToken
  deriving DecidableEq, Repr

/-- The pieces of a path between its `/` characters. -/
def splitSlash : List Char → List (List Char)
  | [] => [[]]
  | c :: cs =>
    if c = '/' then [] :: splitSlash cs
    else
      match splitSlash cs with
      | [] => [[c]]
      | s :: ss => (c :: s) :: ss

/-- The characters a parameter name is made of. -/
def isNameChar (c : Char) : Bool := c.isAlphanum || c = '_'

/-- The characters with a meaning of their own in a pattern. -/
def isPatternSpecial (c : Char) : Bool :=
  c = ':' || c = '(' || c = ')' || c = '*' || c = '+' || c = '?' || c = Char.ofNat 92

/-- One pattern segment as a token: `:name` is a parameter, `:name(.*)*` the
repeatable optional wildcard, a segment free of special characters is static.
Other pattern forms do not occur in the table and yield `none`. -/
def tokenizeSegment (seg : List Char) : Option PathToken :=
  match seg with
  | [] => none
  | ':' :: rest =>
    let name := rest.takeWhile isNameChar
    let tail := rest.dropWhile isNameChar
    if name = [] then none
    else if tail = [] then some (PathToken.param name)
    else if tail = ['(', '.', '*', ')', '*'] then some (PathToken.wildcard name)
    else none
  | c :: cs => if (c :: cs).any isPatternSpecial then none else some (PathToken.static (c :: cs))

/-- A path pattern as tokens, one a segment; the pattern `/` is the root
token, a static token with the empty value. -/
def tokenizePath (pattern : String) : Option (List PathToken) :=
  match splitSlash pattern.data with
  | [] :: [[]] => some [PathToken.static []]
  | [] :: segs => segs.mapM tokenizeSegment
  | _ => none

/-- Whether a pattern is the catch-all. -/
def isCatchAll (tokens : List PathToken) : Bool :=
  match tokens with
  | [PathToken.wildcard _] => true
  | _ => false

/-! ### Matching a path -/

/-- The line terminators, which `.` does not match: U+000A, U+000D, U+2028
and U+2029. -/
def isLineTerminator (c : Char) : Bool :=
  c.toNat = 10 || c.toNat = 13 || c.toNat = 8232 || c.toNat = 8233

/-- The end of every expression, `/?$`: nothing is left, or one slash. -/
def endOfPath (s : List Char) : Bool :=
  s == [] || s == ['/']

/-- A static value at the head of the input, ignoring case: the input after
it, or `none`. -/
def matchStatic : List Char → List Char → Option (List Char)
  | [], s => some s
  | _ :: _, [] => none
  | v :: vs, c :: cs => if v.toLower = c.toLower then matchStatic vs cs else none

/-- The expression `[^/]+?` where a slash or the end follows: the longest run
of characters other than `/`, which must not be empty; the input after it. -/
def matchParam (s : List Char) : Option (List Char) :=
  if s.takeWhile (fun c => c != '/') = [] then none
  else some (s.dropWhile (fun c => c != '/'))

/-- The expression `(?:.*)(?:/(?:.*))*` followed by `k`: some line-terminator
free start of the input, with `k` accepting what is left. -/
def matchAnyRun (k : List Char → Bool) : List Char → Bool
  | [] => k []
  | c :: cs => k (c :: cs) || (!isLineTerminator c && matchAnyRun k cs)

/-- Whether the input matches the expression of the tokens up to its end. -/
def matchFrom : List PathToken → List Char → Bool
  | [], s => endOfPath s
  | PathToken.static v :: ts, s =>
    match s with
    | [] => false
    | c :: rest =>
      if c = '/' then
        match matchStatic v rest with
        | some r => matchFrom ts r
        | none => false
      else false
  | PathToken.param _ :: ts, s =>
    match s with
    | [] => false
    | c :: rest =>
      if c = '/' then
        match matchParam rest with
        | some r => matchFrom ts r
        | none => false
      else false
  | PathToken.wildcard _ :: ts, s =>
    matchFrom ts s ||
      match s with
      | [] => false
      | c :: rest => if c = '/' then matchAnyRun (matchFrom ts) rest else false

/-- Whether a concrete path matches the pattern of a record. -/
def RouteRecord.matchesPath (r : RouteRecord) (path : String) : Bool :=
  match tokenizePath r.path with
  | none => false
  | some tokens => matchFrom tokens path.data

/-! ### Ranking -/

/-- The score of one token: segment 40 plus static 40; segment 40 plus
dynamic 20; for the wildcard, segment 40, custom expression 10, dynamic 20,
optional -8, repeatable -20 and wildcard -50. -/
def tokenScore : PathToken → Int
  | PathToken.static _ => 80
  | PathToken.param _ => 60
  | PathToken.wildcard _ => -8

/-- The score of a record: one list a segment, one entry a token. -/
def RouteRecord.score (r : RouteRecord) : List (List Int) :=
  match tokenizePath r.path with
  | none => []
  | some tokens => tokens.map (fun t => [tokenScore t])

/-- The walk of `compareScoreArray` over two score lists, `a0` and `b0` being
the whole lists. -/
def compareScoreArrayFrom (a0 b0 : List Int) : List Int → List Int → Int
  | x :: xs, y :: ys => if y - x ≠ 0 then y - x else compareScoreArrayFrom a0 b0 xs ys
  | [], [] => 0
  | [], _ :: _ => if a0 = [80] then -1 else 1
  | _ :: _, [] => if b0 = [80] then 1 else -1

/-- The library's `compareScoreArray`: negative when `a` ranks first. -/
def compareScoreArray (a b : List Int) : Int :=
  compareScoreArrayFrom a b a b

/-- The library's `isLastScoreNegative`. -/
def isLastScoreNegative (score : List (List Int)) : Bool :=
  match score.getLast? with
  | none => false
  | some last =>
    match last.getLast? with
    | none => false
    | some x => decide (x < 0)

/-- The walk of `comparePathParserScore` over two scores, `a0` and `b0` being
the whole scores. -/
def comparePathParserScoreFrom (a0 b0 : List (List Int)) :
    List (List Int) → List (List Int) → Int
  | x :: xs, y :: ys =>
    if compareScoreArray x y ≠ 0 then compareScoreArray x y
    else comparePathParserScoreFrom a0 b0 xs ys
  | _, _ =>
    if ((b0.length : Int) - (a0.length : Int)).natAbs = 1 then
      if isLastScoreNegative a0 then 1
      else if isLastScoreNegative b0 then -1
      else (b0.length : Int) - (a0.length : Int)
    else (b0.length : Int) - (a0.length : Int)

/-- The library's `comparePathParserScore`: negative when `a` ranks first. -/
def comparePathParserScore (a b : List (List Int)) : Int :=
  comparePathParserScoreFrom a b a b

/-- The library's `insertMatcher`: the new record goes after every record it
does not rank before. (The library also stops at an ancestor with the same
path; children are registered before their parent, so no ancestor is in the
list when a record of this table is inserted.) -/
def insertMatcher (m : RouteRecord) : List RouteRecord → List RouteRecord
  | [] => [m]
  | x :: xs =>
    if comparePathParserScore m.score x.score ≥ 0 then x :: insertMatcher m xs
    else m :: x :: xs

/-- The records in the order the matcher tries them: each record of the tree
inserted in registration order. -/
def matchers : List RouteRecord :=
  allRecords.foldl (fun acc r => insertMatcher r acc) []

/-- The record a concrete path resolves to: the first match in that order. -/
def resolve (path : String) : Option RouteRecord :=
  matchers.find? (fun r => r.matchesPath path)

/-- The records declared with a pattern other than the catch-all. -/
def declaredRecords : List RouteRecord :=
  allRecords.filter (fun r =>
    match tokenizePath r.path with
    | none => true
    | some tokens => !isCatchAll tokens)

/-! ## Properties of the navigation guard -/

theorem includes_iff (xs : List String) (x : String) : includes xs x = true ↔ x ∈ xs := by
  simp [includes, List.any_eq_true]

theorem authRequired_of_not_mem {p : String} (h : p ∉ publicPages) : authRequired p = true := by
  have hi : includes publicPages p = false := by
    cases hb : includes publicPages p with
    | false => rfl
    | true => exact absurd ((includes_iff _ _).1 hb) h
  simp [authRequired, hi]

theorem authRequired_of_mem {p : String} (h : p ∈ publicPages) : authRequired p = false := by
  simp [authRequired, (includes_iff _ _).2 h]

theorem authRequired_eq_true_iff (p : String) : authRequired p = true ↔ p ∉ publicPages := by
  constructor
  · intro h hm
    rw [authRequired_of_mem hm] at h
    exact Bool.false_ne_true h
  · exact authRequired_of_not_mem

/-- C1. For every target path outside the public allowlist and with no
credential, the guard redirects to `/auth/login`; so it does for the declared
route `/tokens` and for the undeclared path `/unknown/xyz`. -/
theorem private_without_credential_redirects_to_login (p src : String)
    (h : p ∉ publicPages) :
    navDecide p src false = NavigationDecision.redirect "/auth/login" ∧
      navDecide "/tokens" src false = NavigationDecision.redirect "/auth/login" ∧
      navDecide "/unknown/xyz" src false = NavigationDecision.redirect "/auth/login" := by
  refine ⟨?_, ?_, ?_⟩
  · simp [navDecide, guardBranch, authRequired_of_not_mem h]
  · simp [navDecide, guardBranch, authRequired_of_not_mem (p := "/tokens") (by decide)]
  · simp [navDecide, guardBranch, authRequired_of_not_mem (p := "/unknown/xyz") (by decide)]

theorem private_without_credential_redirects_to_login_witness :
    "/repositories" ∉ publicPages ∧
      navDecide "/repositories" "/" false = NavigationDecision.redirect "/auth/login" :=
  ⟨by decide,
    (private_without_credential_redirects_to_login "/repositories" "/" (by decide)).1⟩

/-- C2. For every target path in the public allowlist and with a credential
present, the guard redirects to `/`, whatever the source path. -/
theorem public_with_credential_redirects_home (p src : String) (h : p ∈ publicPages) :
    navDecide p src true = NavigationDecision.redirect "/" := by
  simp [navDecide, guardBranch, authRequired_of_mem h]

theorem public_with_credential_redirects_home_witness :
    "/auth/register" ∈ publicPages ∧
      navDecide "/auth/register" "/tokens" true = NavigationDecision.redirect "/" :=
  ⟨by decide, public_with_credential_redirects_home "/auth/register" "/tokens" (by decide)⟩

/-- C3. The guard allows exactly when the target is outside the allowlist and
the credential is present, or the target is in the allowlist and the
credential is absent; in every other combination it redirects. -/
theorem allow_iff (p src : String) (c : Bool) :
    (navDecide p src c = NavigationDecision.allow ↔
        (p ∉ publicPages ∧ c = true) ∨ (p ∈ publicPages ∧ c = false)) ∧
      (¬((p ∉ publicPages ∧ c = true) ∨ (p ∈ publicPages ∧ c = false)) →
        ∃ q, navDecide p src c = NavigationDecision.redirect q) := by
  by_cases hm : p ∈ publicPages
  · cases c <;> simp [navDecide, guardBranch, authRequired_of_mem hm, hm]
  · cases c <;> simp [navDecide, guardBranch, authRequired_of_not_mem hm, hm]

/-- C4. No redirect loop: when the guard redirects a target to `q`, it allows
`q` under the same credential flag; in particular it allows `/auth/login`
without a credential and `/` with one. -/
theorem no_redirect_loop (p src src2 q : String) (c : Bool)
    (h : navDecide p src c = NavigationDecision.redirect q) :
    navDecide q src2 c = NavigationDecision.allow ∧
      navDecide "/auth/login" src2 false = NavigationDecision.allow ∧
      navDecide "/" src2 true = NavigationDecision.allow := by
  have hlogin : navDecide "/auth/login" src2 false = NavigationDecision.allow := by
    simp [navDecide, guardBranch, authRequired_of_mem (p := "/auth/login") (by decide)]
  have hhome : navDecide "/" src2 true = NavigationDecision.allow := by
    simp [navDecide, guardBranch, authRequired_of_not_mem (p := "/") (by decide)]
  refine ⟨?_, hlogin, hhome⟩
  by_cases hm : p ∈ publicPages
  · cases c
    · simp [navDecide, guardBranch, authRequired_of_mem hm] at h
    · simp [navDecide, guardBranch, authRequired_of_mem hm] at h
      rw [← h]
      exact hhome
  · cases c
    · simp [navDecide, guardBranch, authRequired_of_not_mem hm] at h
      rw [← h]
      exact hlogin
    · simp [navDecide, guardBranch, authRequired_of_not_mem hm] at h

theorem no_redirect_loop_witness :
    navDecide "/tokens" "/" false = NavigationDecision.redirect "/auth/login" ∧
      navDecide "/auth/login" "/tokens" false = NavigationDecision.allow :=
  ⟨by decide, (no_redirect_loop "/tokens" "/" "/tokens" "/auth/login" false (by decide)).1⟩

/-- C5. The credential is looked up under the key `apiKey`, in the durable
store first and the ephemeral store second: it is present exactly when one of
the two values is a non-empty string; a non-empty durable value is the result
whatever the ephemeral store holds; otherwise the ephemeral value is. -/
theorem credential_lookup (localStorage sessionStorage : Storage) :
    (truthy (apiKey localStorage sessionStorage) = true ↔
        (∃ s, localStorage "apiKey" = some s ∧ s ≠ "") ∨
          (∃ s, sessionStorage "apiKey" = some s ∧ s ≠ "")) ∧
      ((∃ s, localStorage "apiKey" = some s ∧ s ≠ "") →
        ∀ other : Storage, apiKey localStorage other = localStorage "apiKey") ∧
      ((¬ ∃ s, localStorage "apiKey" = some s ∧ s ≠ "") →
        apiKey localStorage sessionStorage = sessionStorage "apiKey") := by
  have ht : ∀ v : Option String, truthy v = true ↔ ∃ s, v = some s ∧ s ≠ "" := by
    intro v
    cases v with
    | none => simp [truthy]
    | some s => simp [truthy]
  refine ⟨?_, ?_, ?_⟩
  · unfold apiKey jsOr
    by_cases hl : truthy (localStorage "apiKey") = true
    · simp only [hl, if_true]
      constructor
      · intro _
        exact Or.inl ((ht _).1 hl)
      · intro _
        trivial
    · simp only [hl]
      constructor
      · intro h
        exact Or.inr ((ht _).1 h)
      · intro h
        rcases h with h | h
        · exact absurd ((ht _).2 h) hl
        · exact (ht _).2 h
  · intro h other
    simp [apiKey, jsOr, (ht _).2 h]
  · intro h
    have hl : ¬ truthy (localStorage "apiKey") = true := fun hh => h ((ht _).1 hh)
    simp [apiKey, jsOr, hl]

/-! ## A failing credential read -/

/-- C6, counterexample. With a durable store whose `getItem` throws, the
guard on the private target `/tokens` ends in the thrown error: it makes no
decision, so it does not redirect to `/auth/login`. -/
theorem credential_read_failure_propagates :
    beforeEachThrowing "/tokens" "/" (fun _ => Except.error StorageError.securityError)
        (fun _ => Except.ok none) = Except.error StorageError.securityError ∧
      beforeEachThrowing "/tokens" "/" (fun _ => Except.error StorageError.securityError)
        (fun _ => Except.ok none) ≠ Except.ok (NavigationDecision.redirect "/auth/login") := by
  constructor
  · rfl
  · intro h
    cases h

/-- C6, amended. A failure of a read the guard performs (the durable read, or
the ephemeral read after an empty durable value) propagates out of the guard
for every target; a non-empty durable value decides as credential present
without the ephemeral store being read; and when both reads succeed the guard
decides as `beforeEach` does on the values read. -/
theorem credential_read_outcomes (p src : String) (localStorage sessionStorage : ThrowingStorage) :
    (∀ e, localStorage "apiKey" = Except.error e →
        beforeEachThrowing p src localStorage sessionStorage = Except.error e) ∧
      (∀ a e, localStorage "apiKey" = Except.ok a → truthy a = false →
        sessionStorage "apiKey" = Except.error e →
        beforeEachThrowing p src localStorage sessionStorage = Except.error e) ∧
      (∀ a, localStorage "apiKey" = Except.ok a → truthy a = true →
        beforeEachThrowing p src localStorage sessionStorage =
          Except.ok (navDecide p src true)) ∧
      (∀ l s : Storage,
        beforeEachThrowing p src l.toThrowing s.toThrowing = Except.ok (beforeEach p src l s)) := by
  refine ⟨?_, ?_, ?_, ?_⟩
  · intro e h
    simp [beforeEachThrowing, apiKeyThrowing, h]
  · intro a e ha hf hs
    simp [beforeEachThrowing, apiKeyThrowing, ha, hf, hs]
  · intro a ha ht
    simp [beforeEachThrowing, apiKeyThrowing, ha, ht]
  · intro l s
    unfold beforeEachThrowing apiKeyThrowing beforeEach apiKey jsOr Storage.toThrowing
    by_cases hl : truthy (l "apiKey") = true
    · simp [hl]
    · simp [hl]

/-! ## Properties of the route table -/

/-- C10. No two routes of the tree (top-level routes and the children of the
layout route) carry the same name. -/
theorem route_names_unique : routeNames.Nodup := by
  decide


/-- The records of the tree in the order the matcher tries them, written out. -/
theorem matchers_eq :
    matchers =
      [ RouteRecord.mk "/auth/login" (some "login") "@/views/pages/auth/Login.vue",
        RouteRecord.mk "/auth/register" (some "register") "@/views/pages/auth/Register.vue",
        RouteRecord.mk "/repositories/:id/commits" (some "repo-commits") "@/views/Commits.vue",
        RouteRecord.mk "/user" (some "user") "@/views/User.vue",
        RouteRecord.mk "/" (some "dashboard") "@/views/Dashboard.vue",
        RouteRecord.mk "/tokens" (some "tokens") "@/views/Tokens.vue",
        RouteRecord.mk "/repositories" (some "repostiories") "@/views/Repositories.vue",
        RouteRecord.mk "/commits" (some "commits") "@/views/Commits.vue",
        RouteRecord.mk "/" none "@/layout/AppLayout.vue",
        RouteRecord.mk "/:pathMatch(.*)*" (some "notfound") "@/views/pages/NotFound.vue" ] := by
  decide

/-- The records declared with a pattern other than the catch-all, written out. -/
theorem declaredRecords_eq :
    declaredRecords =
      [ RouteRecord.mk "/user" (some "user") "@/views/User.vue",
        RouteRecord.mk "/" (some "dashboard") "@/views/Dashboard.vue",
        RouteRecord.mk "/tokens" (some "tokens") "@/views/Tokens.vue",
        RouteRecord.mk "/repositories" (some "repostiories") "@/views/Repositories.vue",
        RouteRecord.mk "/repositories/:id/commits" (some "repo-commits") "@/views/Commits.vue",
        RouteRecord.mk "/commits" (some "commits") "@/views/Commits.vue",
        RouteRecord.mk "/" none "@/layout/AppLayout.vue",
        RouteRecord.mk "/auth/login" (some "login") "@/views/pages/auth/Login.vue",
        RouteRecord.mk "/auth/register" (some "register") "@/views/pages/auth/Register.vue" ] := by
  decide

/-- A run free of line terminators is accepted when what follows accepts the
empty rest. -/
theorem matchAnyRun_of_no_line_terminator (k : List Char → Bool) (hk : k [] = true)
    (t : List Char) (h : ∀ c ∈ t, isLineTerminator c = false) : matchAnyRun k t = true := by
  induction t with
  | nil => simpa [matchAnyRun] using hk
  | cons c cs ih =>
    have hc : isLineTerminator c = false := h c (by simp)
    have hcs : ∀ d ∈ cs, isLineTerminator d = false := fun d hd =>
      h d (List.mem_cons_of_mem _ hd)
    simp [matchAnyRun, hc, ih hcs]

/-- The catch-all record matches every path that starts with a slash and has
no line terminator. -/
theorem notfound_matches (p : String) (hs : p.data.head? = some '/')
    (hl : ∀ c ∈ p.data, isLineTerminator c = false) :
    (RouteRecord.mk "/:pathMatch(.*)*" (some "notfound")
      "@/views/pages/NotFound.vue").matchesPath p = true := by
  have ht : tokenizePath "/:pathMatch(.*)*" = some [PathToken.wildcard "pathMatch".data] := by
    decide
  cases hp : p.data with
  | nil => simp [hp] at hs
  | cons c rest =>
    rw [hp] at hs hl
    have hc : c = '/' := by simpa using hs
    have hrest : ∀ d ∈ rest, isLineTerminator d = false := fun d hd =>
      hl d (List.mem_cons_of_mem _ hd)
    have hrun := matchAnyRun_of_no_line_terminator (fun x => endOfPath x)
      (by simp [endOfPath]) rest hrest
    simp [RouteRecord.matchesPath, ht, hp, matchFrom, hc, hrun]

/-- A path with a line terminator matches no pattern of the table, and two
slashes match the root pattern. -/
theorem resolve_edge_paths :
    resolve "/a\nb" = none ∧ (resolve "//").bind (fun r => r.name) = some "dashboard" := by
  decide

/-- C7, counterexample. The allowlisted path `/auth/error` matches no declared
pattern and resolves to `notfound`, yet it is not classified private: without
a credential the guard allows it. -/
theorem auth_error_unmatched_but_public :
    (∀ r ∈ declaredRecords, r.matchesPath "/auth/error" = false) ∧
      (resolve "/auth/error").bind (fun r => r.name) = some "notfound" ∧
      authRequired "/auth/error" = false ∧
      navDecide "/auth/error" "/" false = NavigationDecision.allow ∧
      navDecide "/auth/error" "/" false ≠ NavigationDecision.redirect "/auth/login" := by
  decide

/-- C7, amended. Every path (a string that starts with `/` and has no line
terminator) that matches no declared pattern resolves to the catch-all route
`notfound`, and unless it is the allowlisted `/auth/error` it is classified
private, so that without a credential the guard redirects it to
`/auth/login`. -/
theorem catch_all_coverage (p : String) (hs : p.data.head? = some '/')
    (hl : ∀ c ∈ p.data, isLineTerminator c = false)
    (h : ∀ r ∈ declaredRecords, r.matchesPath p = false) :
    resolve p = some (RouteRecord.mk "/:pathMatch(.*)*" (some "notfound")
        "@/views/pages/NotFound.vue") ∧
      (p ≠ "/auth/error" →
        authRequired p = true ∧
          ∀ src, navDecide p src false = NavigationDecision.redirect "/auth/login") := by
  rw [declaredRecords_eq] at h
  simp only [List.forall_mem_cons, List.not_mem_nil, false_implies, implies_true,
    and_true] at h
  obtain ⟨h1, h2, h3, h4, h5, h6, h7, h8, h9⟩ := h
  constructor
  · unfold resolve
    rw [matchers_eq]
    simp [List.find?, h1, h2, h3, h4, h5, h6, h7, h8, h9, notfound_matches p hs hl]
  · intro hne
    have hnot : p ∉ publicPages := by
      intro hm
      simp only [publicPages, List.mem_cons, List.not_mem_nil, or_false] at hm
      rcases hm with hm | hm | hm
      · subst hm
        exact absurd h8 (by decide)
      · subst hm
        exact absurd h9 (by decide)
      · exact hne hm
    refine ⟨authRequired_of_not_mem hnot, fun src => ?_⟩
    simp [navDecide, guardBranch, authRequired_of_not_mem hnot]

theorem catch_all_coverage_witness :
    "/unknown/xyz".data.head? = some '/' ∧
      (∀ c ∈ "/unknown/xyz".data, isLineTerminator c = false) ∧
      (∀ r ∈ declaredRecords, r.matchesPath "/unknown/xyz" = false) ∧
      resolve "/unknown/xyz" = some (RouteRecord.mk "/:pathMatch(.*)*" (some "notfound")
        "@/views/pages/NotFound.vue") ∧
      navDecide "/unknown/xyz" "/" false = NavigationDecision.redirect "/auth/login" :=
  ⟨by decide, by decide, by decide,
    (catch_all_coverage "/unknown/xyz" (by decide) (by decide) (by decide)).1,
    ((catch_all_coverage "/unknown/xyz" (by decide) (by decide) (by decide)).2
      (by decide)).2 "/"⟩

/-- C9, failing input. The path `/auth/login/` resolves to the route `login`,
and with a credential in the durable store the guard allows it instead of
redirecting to `/`; likewise `/auth/register/` and the route `register`. -/
theorem login_trailing_slash_allowed :
    (resolve "/auth/login/").bind (fun r => r.name) = some "login" ∧
      beforeEach "/auth/login/" "/"
        (fun k => if k = "apiKey" then some "secret" else none) (fun _ => none) =
        NavigationDecision.allow ∧
      (resolve "/auth/register/").bind (fun r => r.name) = some "register" ∧
      navDecide "/auth/register/" "/" true = NavigationDecision.allow := by
  decide

/-! ## The commits route of one repository -/

theorem matchStatic_self_append (v rest : List Char) : matchStatic v (v ++ rest) = some rest := by
  induction v with
  | nil => cases rest <;> rfl
  | cons c cs ih => simp [matchStatic, ih]

theorem matchStatic_head_ne (a c : Char) (vs cs : List Char) (h : a.toLower ≠ c.toLower) :
    matchStatic (a :: vs) (c :: cs) = none := by
  simp [matchStatic, h]

theorem matchParam_run (run rest : List Char) (hne : run ≠ []) (h : '/' ∉ run) :
    matchParam (run ++ '/' :: rest) = some ('/' :: rest) := by
  have htake : ∀ r : List Char, '/' ∉ r →
      (r ++ '/' :: rest).takeWhile (fun c => c != '/') = r ∧
        (r ++ '/' :: rest).dropWhile (fun c => c != '/') = '/' :: rest := by
    intro r
    induction r with
    | nil => intro _; simp [List.takeWhile, List.dropWhile]
    | cons c cs ih =>
      intro hr
      have hc : c ≠ '/' := fun e => hr (by simp [e])
      have hcs : '/' ∉ cs := fun m => hr (List.mem_cons_of_mem _ m)
      obtain ⟨i1, i2⟩ := ih hcs
      have hb : (c != '/') = true := by simp [hc]
      simp [List.takeWhile, List.dropWhile, hb, i1, i2]
  obtain ⟨t1, t2⟩ := htake run h
  simp [matchParam, t1, t2, hne]

/-- The characters of `/repositories/<id>/commits`. -/
theorem repo_commits_data (id : String) :
    ("/repositories/" ++ id ++ "/commits").data =
      '/' :: ("repositories".data ++ '/' :: (id.data ++ '/' :: ("commits".data ++ []))) := by
  simp [String.data_append]

/-- A path `/repositories/<id>/commits` is none of the allowlisted paths. -/
theorem repo_commits_not_public (id : String) :
    "/repositories/" ++ id ++ "/commits" ∉ publicPages := by
  intro hm
  simp only [publicPages, List.mem_cons, List.not_mem_nil, or_false] at hm
  rcases hm with hm | hm | hm <;>
  · have hd := congrArg String.data hm
    simp [String.data_append] at hd

/-- C8. For every non-empty id without `/`, the path
`/repositories/<id>/commits` resolves to the route `repo-commits`, whose view
is the commits view (so not to `repostiories`, `commits` or `notfound`), and
with a credential present the guard allows it. -/
theorem repo_commits_resolves (id src : String) (h1 : id ≠ "") (h2 : '/' ∉ id.data) :
    resolve ("/repositories/" ++ id ++ "/commits") =
        some (RouteRecord.mk "/repositories/:id/commits" (some "repo-commits")
          "@/views/Commits.vue") ∧
      navDecide ("/repositories/" ++ id ++ "/commits") src true = NavigationDecision.allow := by
  have hd := repo_commits_data id
  have hid : id.data ≠ [] := by
    intro hn
    apply h1
    cases id
    simp_all
  have hhead : ∀ y : List Char, "repositories".data ++ y = 'r' :: ("epositories".data ++ y) :=
    fun _ => rfl
  have t1 : tokenizePath "/auth/login" =
      some [PathToken.static "auth".data, PathToken.static "login".data] := by decide
  have t2 : tokenizePath "/auth/register" =
      some [PathToken.static "auth".data, PathToken.static "register".data] := by decide
  have t3 : tokenizePath "/repositories/:id/commits" =
      some [PathToken.static "repositories".data, PathToken.param "id".data,
        PathToken.static "commits".data] := by decide
  have hauth : ∀ y : List Char, matchStatic "auth".data ("repositories".data ++ y) = none := by
    intro y
    rw [hhead]
    exact matchStatic_head_ne 'a' 'r' _ _ (by decide)
  have m1 : (RouteRecord.mk "/auth/login" (some "login")
      "@/views/pages/auth/Login.vue").matchesPath ("/repositories/" ++ id ++ "/commits") =
      false := by
    simp only [RouteRecord.matchesPath, t1, hd, matchFrom, hauth, if_true]
  have m2 : (RouteRecord.mk "/auth/register" (some "register")
      "@/views/pages/auth/Register.vue").matchesPath ("/repositories/" ++ id ++ "/commits") =
      false := by
    simp only [RouteRecord.matchesPath, t2, hd, matchFrom, hauth, if_true]
  have m3 : (RouteRecord.mk "/repositories/:id/commits" (some "repo-commits")
      "@/views/Commits.vue").matchesPath ("/repositories/" ++ id ++ "/commits") = true := by
    simp only [RouteRecord.matchesPath, t3, hd, matchFrom, if_true, matchStatic_self_append,
      matchParam_run _ _ hid h2]
    decide
  constructor
  · unfold resolve
    rw [matchers_eq]
    simp only [List.find?, m1, m2, m3]
  · simp [navDecide, guardBranch, authRequired_of_not_mem (repo_commits_not_public id)]

theorem repo_commits_resolves_witness :
    "42" ≠ "" ∧ '/' ∉ "42".data ∧
      resolve ("/repositories/" ++ "42" ++ "/commits") =
        some (RouteRecord.mk "/repositories/:id/commits" (some "repo-commits")
          "@/views/Commits.vue") ∧
      navDecide ("/repositories/" ++ "42" ++ "/commits") "/" true = NavigationDecision.allow :=
  ⟨by decide, by decide, repo_commits_resolves "42" "/" (by decide) (by decide)⟩
